import Mathlib

/-!
# Verification of the Cursor-Maker editor core

Shallow embedding of the codec / compositor core of
`src/cursor-editor/src/App.tsx`: frame-timeline active-frame selection
(`drawLayer`), the canvas transform pipeline (`drawLayer`), the ANI
container decoder (`parseAniFile`), the static CUR/ICO extractor
(`parseFile`), the export pipeline (`generateExportBlob`), and the layer
stack operation `removeLayer`.

Byte arrays are `List Nat` (each entry one byte).  Millisecond delays are
`ℚ` (JS numbers; all values the claims touch are exact in ℚ).  Frame
indices, positions and sizes are `Nat`.
-/

/-- One animation frame: only its delay in milliseconds matters for the
timing claims; the raster is abstracted away. -/
structure Layer where
  id : String
  frames : List ℚ
  visible : Bool
  locked : Bool
  isBase : Bool
deriving DecidableEq, Repr

/-! ## Frame Timeline: active-frame selection inside `drawLayer`

```js
let frame = layer.frames[0];
if (layer.frames.length > 1) {
    const total = layer.frames.reduce((a,b) => a+b.delay, 0);
    let t = time % total;
    for(const f of layer.frames) {
        if (t < f.delay) { frame = f; break; }
        t -= f.delay;
    }
}
```
The spec's data model declares durations to be positive integer
milliseconds, and the claim quantifies over integer elapsed times, so the
selection is embedded over `Nat` (JS `%` agrees with `Nat.mod` on
non-negative integers). -/

/-- The scan loop of `drawLayer`: returns the index of the first frame `f`
with `t < f.delay`, subtracting each passed frame's delay from `t`;
`none` when the loop falls through without a match. -/
def frameScan : List Nat → Nat → Option Nat
  | [], _ => none
  | d :: rest, t =>
      if t < d then some 0 else (frameScan rest (t - d)).map (· + 1)

/-- Index of the frame `drawLayer` draws at elapsed time `time` for a layer
with the given frame delays.  `frame` is initialised to `frames[0]`, so a
fall-through of the scan (and the single-frame / empty cases) leave index
0. -/
def drawLayerFrameIdx (delays : List Nat) (time : Nat) : Nat :=
  if 1 < delays.length then
    match frameScan delays (time % delays.sum) with
    | some i => i
    | none => 0
  else 0

/-- Characterisation of the scan: on `t < delays.sum` it finds the least
index whose cumulative duration strictly exceeds `t`. -/
theorem frameScan_spec (delays : List Nat) (t : Nat) (ht : t < delays.sum) :
    ∃ i, frameScan delays t = some i ∧
      t < (delays.take (i + 1)).sum ∧
      ∀ j < i, (delays.take (j + 1)).sum ≤ t := by
  induction delays generalizing t with
  | nil => simp at ht
  | cons d rest ih =>
      by_cases h : t < d
      · refine ⟨0, by simp [frameScan, h], ?_, by omega⟩
        simp only [List.take_succ_cons, List.take_zero, List.sum_cons,
          List.sum_nil]
        omega
      · push_neg at h
        have ht' : t - d < rest.sum := by
          simp only [List.sum_cons] at ht; omega
        obtain ⟨i, hscan, hlt, hleast⟩ := ih (t - d) ht'
        refine ⟨i + 1, ?_, ?_, ?_⟩
        · simp [frameScan, Nat.not_lt.mpr h, hscan]
        · simp only [List.take_succ_cons, List.sum_cons]
          omega
        · intro j hj
          cases j with
          | zero =>
              simp only [List.take_succ_cons, List.take_zero, List.sum_cons,
                List.sum_nil]
              omega
          | succ j' =>
              have := hleast j' (by omega)
              simp only [List.take_succ_cons, List.sum_cons]
              omega

/-- C1: for every timeline with more than one frame and positive frame
durations, `drawLayer` selects the first frame whose cumulative duration
strictly exceeds `t = elapsedMs mod totalDuration`; concretely, for
durations `[100,150,250]` (total 500) elapsed 0 and 99 select frame 0,
100 and 249 select frame 1, 250 and 499 select frame 2, and 500 wraps to
frame 0. -/
theorem drawLayer_activeFrame_first_exceeding (delays : List Nat) (time : Nat)
    (hlen : 1 < delays.length) (hpos : ∀ d ∈ delays, 0 < d) :
    (time % delays.sum < (delays.take (drawLayerFrameIdx delays time + 1)).sum
      ∧ ∀ j < drawLayerFrameIdx delays time,
          (delays.take (j + 1)).sum ≤ time % delays.sum)
    ∧ (drawLayerFrameIdx [100, 150, 250] 0 = 0
      ∧ drawLayerFrameIdx [100, 150, 250] 99 = 0
      ∧ drawLayerFrameIdx [100, 150, 250] 100 = 1
      ∧ drawLayerFrameIdx [100, 150, 250] 249 = 1
      ∧ drawLayerFrameIdx [100, 150, 250] 250 = 2
      ∧ drawLayerFrameIdx [100, 150, 250] 499 = 2
      ∧ drawLayerFrameIdx [100, 150, 250] 500 = 0) := by
  constructor
  · have hsum : 0 < delays.sum := by
      cases delays with
      | nil => simp at hlen
      | cons d rest => have := hpos d (by simp); simp only [List.sum_cons]; omega
    have ht : time % delays.sum < delays.sum := Nat.mod_lt _ hsum
    obtain ⟨i, hscan, hlt, hleast⟩ := frameScan_spec delays (time % delays.sum) ht
    have hidx : drawLayerFrameIdx delays time = i := by
      simp [drawLayerFrameIdx, hlen, hscan]
    rw [hidx]
    exact ⟨hlt, hleast⟩
  · decide

/-- Witness for C1 at delays `[100,150,250]`, elapsed time 249. -/
theorem drawLayer_activeFrame_first_exceeding_witness :
    (249 % ([100, 150, 250] : List Nat).sum
        < (([100, 150, 250] : List Nat).take
            (drawLayerFrameIdx [100, 150, 250] 249 + 1)).sum
      ∧ ∀ j < drawLayerFrameIdx [100, 150, 250] 249,
          (([100, 150, 250] : List Nat).take (j + 1)).sum
            ≤ 249 % ([100, 150, 250] : List Nat).sum)
    ∧ drawLayerFrameIdx [100, 150, 250] 249 = 1 :=
  ⟨(drawLayer_activeFrame_first_exceeding [100, 150, 250] 249 (by decide)
      (by decide)).1, by decide⟩

/-! ## Compositor: the transform pipeline inside `drawLayer`

```js
ctx.save();
ctx.translate(size/2, size/2);
ctx.translate(layer.config.x, layer.config.y);
ctx.rotate(layer.config.rotation * Math.PI / 180);
ctx.scale(layer.config.scale, layer.config.scale);
ctx.globalAlpha = layer.config.opacity;
ctx.drawImage(frame.image, -frame.image.width/2, -frame.image.height/2);
ctx.restore();
```
A canvas transform call multiplies the current matrix on the right, and a
local point `p` is drawn at device coordinate `M · p`.  The rotation angle
only enters through `cos` and `sin` of the radian angle, so the matrix is
embedded over ℚ parametrised by `(cs, sn) = (cos θ, sin θ)`; for the 90°
instance these are exactly `(0, 1)`.  Opacity does not move any point and
is omitted. -/

/-- Canvas 2D affine matrix `(a, b, c, d, e, f)`: maps `(x, y)` to
`(a x + c y + e, b x + d y + f)`. -/
structure Canvas2DMatrix where
  a : ℚ
  b : ℚ
  c : ℚ
  d : ℚ
  e : ℚ
  f : ℚ
deriving DecidableEq, Repr

/-- Matrix composition as the canvas performs it: `m.mul n` is `m` followed
locally by `n` (device point of `n`-local `p` is `m (n p)`). -/
def Canvas2DMatrix.mul (m n : Canvas2DMatrix) : Canvas2DMatrix :=
  ⟨m.a * n.a + m.c * n.b, m.b * n.a + m.d * n.b,
   m.a * n.c + m.c * n.d, m.b * n.c + m.d * n.d,
   m.a * n.e + m.c * n.f + m.e, m.b * n.e + m.d * n.f + m.f⟩

/-- Apply a matrix to a local point. -/
def Canvas2DMatrix.apply (m : Canvas2DMatrix) (p : ℚ × ℚ) : ℚ × ℚ :=
  (m.a * p.1 + m.c * p.2 + m.e, m.b * p.1 + m.d * p.2 + m.f)

/-- `ctx.translate(x, y)`. -/
def translateM (x y : ℚ) : Canvas2DMatrix := ⟨1, 0, 0, 1, x, y⟩

/-- `ctx.rotate(θ)` with `cs = cos θ`, `sn = sin θ`. -/
def rotateM (cs sn : ℚ) : Canvas2DMatrix := ⟨cs, sn, -sn, cs, 0, 0⟩

/-- `ctx.scale(s, s)`. -/
def scaleM (s : ℚ) : Canvas2DMatrix := ⟨s, 0, 0, s, 0, 0⟩

/-- The full transform `drawLayer` installs before `drawImage`:
translate to canvas centre, translate by the layer offset, rotate, scale,
in exactly that order. -/
def drawLayerMatrix (size x y cs sn s : ℚ) : Canvas2DMatrix :=
  (((translateM (size/2) (size/2)).mul (translateM x y)).mul
      (rotateM cs sn)).mul (scaleM s)

/-- Device position of the drawn image's centre: a `w×h` image is drawn at
local `(-w/2, -h/2)`, so its centre — the sample point of a 1×1 opaque
pixel layer — sits at local `(0, 0)`. -/
def drawLayerSamplePoint (size x y cs sn s : ℚ) : ℚ × ℚ :=
  (drawLayerMatrix size x y cs sn s).apply (0, 0)

/-- C6 counterexample: on a 64×64 canvas with `{x:10, y:0, scale:2,
rotation:90}` (so `cos = 0`, `sin = 1`) the layer's sample point lands at
`(42, 32) = (center.x + 10, center.y)`, not at `(32, 52) =
(center.x, center.y + 20)` as the claim states. -/
theorem drawLayer_samplePoint_90deg_counterexample :
    drawLayerSamplePoint 64 10 0 0 1 2 = ((42 : ℚ), (32 : ℚ))
    ∧ drawLayerSamplePoint 64 10 0 0 1 2 ≠ ((32 : ℚ), (52 : ℚ)) := by
  simp only [drawLayerSamplePoint, drawLayerMatrix, Canvas2DMatrix.mul,
    Canvas2DMatrix.apply, translateM, rotateM, scaleM, Prod.mk.injEq,
    ne_eq, not_and]
  norm_num

/-- C6 amended: because translate precedes rotate and scale, rotation and
scale act about the already-translated origin and never move the layer
offset: for every size, offset, rotation and scale the sample point is
canvas centre plus the *untransformed* offset `(x, y)`. -/
theorem drawLayer_samplePoint_offset_untransformed
    (size x y cs sn s : ℚ) :
    drawLayerSamplePoint size x y cs sn s = (size/2 + x, size/2 + y) := by
  simp only [drawLayerSamplePoint, drawLayerMatrix, Canvas2DMatrix.mul,
    Canvas2DMatrix.apply, translateM, rotateM, scaleM, Prod.mk.injEq]
  constructor <;> ring

/-! ## Byte-level helpers

JS `DataView.setUint16`/`setUint32` store the value modulo 2^16 / 2^32 in
little-endian order; `setUint8` stores modulo 2^8.  Bytes are `Nat`s in
`0..255`. -/

/-- Little-endian 16-bit encoding (`DataView.setUint16(_, v, true)`). -/
def u16le (v : Nat) : List Nat := [v % 256, v / 256 % 256]

/-- Little-endian 32-bit encoding (`DataView.setUint32(_, v, true)`). -/
def u32le (v : Nat) : List Nat :=
  [v % 256, v / 256 % 256, v / 65536 % 256, v / 16777216 % 256]

/-- Little-endian 16-bit read at `pos` (out-of-range bytes read as 0). -/
def readU16le (bytes : List Nat) (pos : Nat) : Nat :=
  bytes.getD pos 0 + 256 * bytes.getD (pos + 1) 0

/-- Little-endian 32-bit read at `pos` (out-of-range bytes read as 0). -/
def readU32le (bytes : List Nat) (pos : Nat) : Nat :=
  bytes.getD pos 0 + 256 * bytes.getD (pos + 1) 0
    + 65536 * bytes.getD (pos + 2) 0 + 16777216 * bytes.getD (pos + 3) 0

/-! ## CUR encoder inside `generateExportBlob`

```js
const size = png.length;
const head = new ArrayBuffer(22 + size);
const v = new DataView(head);
v.setUint16(0,0,true); v.setUint16(2,2,true); v.setUint16(4,1,true);
const w = activeData.outputSize >= 256 ? 0 : activeData.outputSize;
v.setUint8(6,w); v.setUint8(7,w); v.setUint8(8,0); v.setUint8(9,0);
v.setUint16(10,activeData.hotspot.x,true); v.setUint16(12,activeData.hotspot.y,true);
v.setUint32(14,size,true); v.setUint32(18,22,true);
new Uint8Array(head).set(png, 22);
```
-/

/-- The width/height byte: the output size when below 256, else 0. -/
def curSizeByte (size : Nat) : Nat := if 256 ≤ size then 0 else size

/-- The single-image CUR blob built around one PNG-encoded composite
frame: 6-byte directory, 16-byte entry, then the raw PNG bytes. -/
def curWrap (size hx hy : Nat) (png : List Nat) : List Nat :=
  u16le 0 ++ u16le 2 ++ u16le 1
    ++ [curSizeByte size, curSizeByte size, 0, 0]
    ++ u16le hx ++ u16le hy
    ++ u32le png.length ++ u32le 22
    ++ png

/-- C7 counterexample: for size 32, hotspot `(5, 7)`, a 3-byte payload,
the little-endian u16 at byte offset 2 of the directory entry (absolute
offset 8) is 0 and the one at entry offset 4 (absolute 10) is 5 — the
hotspot is *not* stored at entry offsets 2 and 4 as the claim states; it
sits at entry offsets 4 and 6. -/
theorem curWrap_hotspot_offsets_counterexample :
    readU16le (curWrap 32 5 7 [1, 2, 3]) 8 = 0
    ∧ readU16le (curWrap 32 5 7 [1, 2, 3]) 10 = 5
    ∧ ¬(readU16le (curWrap 32 5 7 [1, 2, 3]) 8 = 5
        ∧ readU16le (curWrap 32 5 7 [1, 2, 3]) 10 = 7) := by
  refine ⟨by decide, by decide, ?_⟩
  intro h
  exact absurd h.1 (by decide)

/-- C7 amended: the exported CUR byte stream is a 6-byte directory
(reserved=0, type=2, count=1, all little-endian uint16) followed by a
16-byte entry whose width and height bytes follow the below-256 rule,
with hotspot-x as a little-endian uint16 at byte offset **4** of the
entry (absolute 10), hotspot-y at entry offset **6** (absolute 12),
`bytesInResource` = PNG length at entry offset 8, `imageOffset` = 22 at
entry offset 12, and the raw PNG bytes from offset 22 on. -/
theorem curWrap_layout (size hx hy : Nat) (png : List Nat) :
    (curWrap size hx hy png).length = 22 + png.length
    ∧ (curWrap size hx hy png).take 6 = [0, 0, 2, 0, 1, 0]
    ∧ (curWrap size hx hy png).getD 6 0 = curSizeByte size
    ∧ (curWrap size hx hy png).getD 7 0 = curSizeByte size
    ∧ (curWrap size hx hy png).getD 8 0 = 0
    ∧ (curWrap size hx hy png).getD 9 0 = 0
    ∧ readU16le (curWrap size hx hy png) 10 = hx % 65536
    ∧ readU16le (curWrap size hx hy png) 12 = hy % 65536
    ∧ readU32le (curWrap size hx hy png) 14 = png.length % 4294967296
    ∧ readU32le (curWrap size hx hy png) 18 = 22
    ∧ (curWrap size hx hy png).drop 22 = png := by
  refine ⟨?_, ?_, ?_, ?_, ?_, ?_, ?_, ?_, ?_, ?_, ?_⟩ <;>
    simp [curWrap, u16le, u32le, readU16le, readU32le] <;> omega

/-! ## Export pipeline: `generateExportBlob`

```js
let maxFrames = 1;
let masterLayer = activeLayers[0];
activeLayers.forEach(l => {
    if (l.frames.length > maxFrames) { maxFrames = l.frames.length; masterLayer = l; }
});
const frameBlobs = []; const rates = [];
const loopCount = format === 'ani' ? maxFrames : 1;
for (let i = 0; i < loopCount; i++) {
    ... render, canvas.toBlob(b => { if (b) { push png or CUR wrap } ; resolve() }) ...
    const d = masterLayer.frames.length > 0 ? masterLayer.frames[i % masterLayer.frames.length].delay : 100;
    rates.push(Math.max(1, Math.round(d / 16.666)));
}
```
The render + `canvas.toBlob` raster-to-bytes step is the delegate the spec
names; it is modelled as an oracle `enc : Nat → Option (List Nat)` giving
the PNG bytes of export frame `i`, `none` when `toBlob` yields no blob.
Note that when `b` is null nothing is pushed to `frameBlobs` but
`rates.push` still runs. -/

/-- Placeholder for JS `activeLayers[0]` on an empty stack (`undefined`);
theorems about the export assume a non-empty stack, as the data model
guarantees. -/
def undefinedLayer : Layer := ⟨"", [], true, false, false⟩

/-- One step of the `maxFrames` / `masterLayer` fold. -/
def masterStep (acc : Nat × Layer) (l : Layer) : Nat × Layer :=
  if acc.1 < l.frames.length then (l.frames.length, l) else acc

/-- The `(maxFrames, masterLayer)` pair after the `forEach`:
`maxFrames` starts at 1 and `masterLayer` at `activeLayers[0]`. -/
def masterSel (layers : List Layer) : Nat × Layer :=
  layers.foldl masterStep (1, layers.headD undefinedLayer)

inductive ExportFormat
  | png
  | cur
  | ani
deriving DecidableEq, Repr

/-- `loopCount = format === 'ani' ? maxFrames : 1`. -/
def exportLoopCount (format : ExportFormat) (layers : List Layer) : Nat :=
  if format = .ani then (masterSel layers).1 else 1

/-- The millisecond delay `d` used for export frame `i`. -/
def exportDelayMs (layers : List Layer) (i : Nat) : ℚ :=
  let master := (masterSel layers).2
  if 0 < master.frames.length then
    master.frames.getD (i % master.frames.length) 0
  else 100

/-- `Math.max(1, Math.round(d / 16.666))` — JS `Math.round` is
`⌊x + 1/2⌋`, and the divisor in the source is the literal `16.666`. -/
def exportRateOf (d : ℚ) : ℤ := max 1 ⌊d / (16666/1000 : ℚ) + 1/2⌋

/-- What gets pushed onto `frameBlobs` for frame `i` when the encoder
produced `png`: the raw PNG for the first frame of a PNG export, the CUR
wrapping otherwise. -/
def exportBlobOf (format : ExportFormat) (size hx hy i : Nat)
    (png : List Nat) : List Nat :=
  if format = .png ∧ i = 0 then png else curWrap size hx hy png

/-- The first `n` iterations of the export loop: accumulated
`(frameBlobs, rates)`.  A `none` from the encoder skips the blob push but
still pushes the rate. -/
def exportGo (format : ExportFormat) (layers : List Layer)
    (size hx hy : Nat) (enc : Nat → Option (List Nat)) :
    Nat → List (List Nat) × List ℤ
  | 0 => ([], [])
  | n + 1 =>
      let acc := exportGo format layers size hx hy enc n
      let blobs :=
        match enc n with
        | some png => acc.1 ++ [exportBlobOf format size hx hy n png]
        | none => acc.1
      (blobs, acc.2 ++ [exportRateOf (exportDelayMs layers n)])

/-- The `(frameBlobs, rates)` result of `generateExportBlob`. -/
def generateExportBlob (format : ExportFormat) (layers : List Layer)
    (size hx hy : Nat) (enc : Nat → Option (List Nat)) :
    List (List Nat) × List ℤ :=
  exportGo format layers size hx hy enc (exportLoopCount format layers)

/-- Greatest frame count over the stack's layers (the spec's words for
the dominant layer's frame count). -/
def maxFrameCount (layers : List Layer) : Nat :=
  (layers.map (fun l => l.frames.length)).foldr max 0

/-- The spec's dominant layer: greatest frame count, ties broken by first
occurrence. -/
def specDominantLayer (layers : List Layer) : Option Layer :=
  layers.find? (fun l => l.frames.length = maxFrameCount layers)

/-- The fold's first component is `max 1` of the greatest frame count. -/
theorem masterFold_fst (ls : List Layer) (m0 : Nat) (b0 : Layer) :
    (ls.foldl masterStep (m0, b0)).1
      = max m0 ((ls.map (fun l => l.frames.length)).foldr max 0) := by
  induction ls generalizing m0 b0 with
  | nil => simp
  | cons a ls ih =>
      simp only [List.foldl_cons, List.map_cons, List.foldr_cons, masterStep]
      by_cases h : m0 < a.frames.length
      · simp only [if_pos h, ih]
        omega
      · simp only [if_neg h, ih]
        omega

/-- If no layer beats the running maximum, the fold is the identity. -/
theorem masterFold_noUpdate (ls : List Layer) (m0 : Nat) (b0 : Layer)
    (h : ∀ l ∈ ls, l.frames.length ≤ m0) :
    ls.foldl masterStep (m0, b0) = (m0, b0) := by
  induction ls with
  | nil => rfl
  | cons a ls ih =>
      have ha : a.frames.length ≤ m0 := h a (by simp)
      simp only [List.foldl_cons, masterStep,
        if_neg (by omega : ¬ m0 < a.frames.length)]
      exact ih (fun l hl => h l (by simp [hl]))

/-- A member's frame count is bounded by the folded maximum. -/
theorem mem_le_foldrMaxCount (ls : List Layer) (w : Layer) (hw : w ∈ ls) :
    w.frames.length ≤ (ls.map (fun l => l.frames.length)).foldr max 0 := by
  induction ls with
  | nil => simp at hw
  | cons b ls ihw =>
      simp only [List.mem_cons] at hw
      rcases hw with rfl | hw
      · simp only [List.map_cons, List.foldr_cons]; omega
      · have := ihw hw
        simp only [List.map_cons, List.foldr_cons]; omega

/-- When some layer strictly beats the initial maximum, `masterLayer`
ends up being the *first* layer whose frame count equals the final
maximum. -/
theorem masterFold_find (ls : List Layer) (m0 : Nat) (b0 : Layer)
    (h : ∃ l ∈ ls, m0 < l.frames.length) :
    ls.find? (fun l => l.frames.length = (ls.foldl masterStep (m0, b0)).1)
      = some (ls.foldl masterStep (m0, b0)).2 := by
  induction ls generalizing m0 b0 with
  | nil => simp at h
  | cons a ls ih =>
      have hfst := masterFold_fst (a :: ls) m0 b0
      simp only [List.map_cons, List.foldr_cons] at hfst
      by_cases hca : m0 < a.frames.length
      · simp only [List.foldl_cons, masterStep, if_pos hca]
        by_cases hrest : ∃ l ∈ ls, a.frames.length < l.frames.length
        · -- a later layer beats `a`; the final max exceeds `a`'s count
          have hih := ih a.frames.length a hrest
          have hfst' := masterFold_fst ls a.frames.length a
          obtain ⟨w, hw, hwgt⟩ := hrest
          have hwle := mem_le_foldrMaxCount ls w hw
          rw [List.find?_cons_of_neg, hih]
          simp only [decide_eq_true_eq, hfst']
          omega
        · -- nothing in `ls` beats `a`: fold stays `(a.count, a)`
          push_neg at hrest
          rw [masterFold_noUpdate ls a.frames.length a hrest]
          rw [List.find?_cons_of_pos]
          simp
      · -- `a` does not beat `m0`; the witness lies in `ls`
        obtain ⟨w, hw, hwgt⟩ := h
        simp only [List.mem_cons] at hw
        rcases hw with rfl | hw
        · omega
        · simp only [List.foldl_cons, masterStep, if_neg hca]
          have hih := ih m0 b0 ⟨w, hw, hwgt⟩
          have hfst' := masterFold_fst ls m0 b0
          have hwle := mem_le_foldrMaxCount ls w hw
          rw [List.find?_cons_of_neg, hih]
          simp only [decide_eq_true_eq, hfst']
          omega

/-- The export loop pushes exactly one rate per iteration,
unconditionally. -/
theorem exportGo_rates_length (format : ExportFormat) (layers : List Layer)
    (size hx hy : Nat) (enc : Nat → Option (List Nat)) (n : Nat) :
    (exportGo format layers size hx hy enc n).2.length = n := by
  induction n with
  | zero => rfl
  | succ n ih =>
      simp only [exportGo]
      cases enc n <;> simp [ih]

/-- When the encoder produces bytes for every frame, the export loop
pushes exactly one blob per iteration. -/
theorem exportGo_blobs_length (format : ExportFormat) (layers : List Layer)
    (size hx hy : Nat) (enc : Nat → Option (List Nat)) (n : Nat)
    (h : ∀ i < n, (enc i).isSome) :
    (exportGo format layers size hx hy enc n).1.length = n := by
  induction n with
  | zero => rfl
  | succ n ih =>
      have hn := h n (by omega)
      simp only [exportGo]
      cases henc : enc n with
      | none => rw [henc] at hn; simp at hn
      | some png =>
          simp [ih (fun i hi => h i (by omega))]

/-- All-empty stacks have greatest frame count 0. -/
theorem maxFrameCount_eq_zero (layers : List Layer)
    (h : ∀ l ∈ layers, l.frames = []) : maxFrameCount layers = 0 := by
  unfold maxFrameCount
  induction layers with
  | nil => rfl
  | cons a ls ih =>
      have ha : a.frames = [] := h a (by simp)
      simp only [List.map_cons, List.foldr_cons, ha, List.length_nil]
      simpa using ih (fun l hl => h l (by simp [hl]))

/-- A stack of layers with frame counts 1, 4, 2 (the spec's example). -/
def exLayers142 : List Layer :=
  [⟨"base", [100], true, false, true⟩,
   ⟨"anim", [50, 50, 50, 50], true, false, false⟩,
   ⟨"two", [75, 75], true, false, false⟩]

/-- C2: when the per-frame encode always yields bytes, ANI export
produces `maxFrameCount` composite frames when some layer is non-empty
and exactly 1 when every layer is empty; CUR and PNG export each produce
exactly 1 frame; and the `[1,4,2]` stack exports exactly 4 ANI frames. -/
theorem generateExportBlob_frame_count (layers : List Layer)
    (size hx hy : Nat) (enc : Nat → Option (List Nat))
    (_hne : layers ≠ []) (henc : ∀ i, (enc i).isSome) :
    ((generateExportBlob .ani layers size hx hy enc).1.length
        = if ∀ l ∈ layers, l.frames = [] then 1 else maxFrameCount layers)
    ∧ (generateExportBlob .cur layers size hx hy enc).1.length = 1
    ∧ (generateExportBlob .png layers size hx hy enc).1.length = 1
    ∧ (generateExportBlob .ani exLayers142 size hx hy enc).1.length = 4 := by
  have hlen : ∀ format ls, (generateExportBlob format ls size hx hy enc).1.length
      = exportLoopCount format ls := by
    intro format ls
    exact exportGo_blobs_length format ls size hx hy enc _
      (fun i _ => henc i)
  refine ⟨?_, by rw [hlen]; rfl, by rw [hlen]; rfl, by rw [hlen]; rfl⟩
  rw [hlen]
  have hfst : (exportLoopCount .ani layers) = max 1 (maxFrameCount layers) := by
    unfold exportLoopCount masterSel maxFrameCount
    rw [if_pos rfl, masterFold_fst]
  by_cases hall : ∀ l ∈ layers, l.frames = []
  · rw [if_pos hall, hfst, maxFrameCount_eq_zero layers hall]
    rfl
  · rw [if_neg hall, hfst]
    push_neg at hall
    obtain ⟨w, hw, hwne⟩ := hall
    have h1 : 1 ≤ w.frames.length := by
      cases hfr : w.frames with
      | nil => exact absurd hfr hwne
      | cons a l => simp [hfr]
    have := mem_le_foldrMaxCount layers w hw
    unfold maxFrameCount
    omega

/-- Witness for C2: the `[1,4,2]` stack with a total encoder exports
exactly 4 ANI frames. -/
theorem generateExportBlob_frame_count_witness :
    (generateExportBlob .ani exLayers142 32 0 0 (fun _ => some [])).1.length
      = 4 :=
  (generateExportBlob_frame_count exLayers142 32 0 0 (fun _ => some [])
    (by decide) (fun _ => rfl)).2.2.2

/-- C3 amended: whenever some layer has at least 2 frames, the code's
`masterLayer` coincides with the spec's dominant layer (greatest frame
count, ties broken by first occurrence) and every export frame `i` takes
its millisecond delay from that layer's frame `i mod frameCount`.  (When
no layer has more than one frame, `masterLayer` stays `activeLayers[0]`,
which may be empty, in which case the delay defaults to 100 ms.) -/
theorem generateExportBlob_delay_from_dominant (layers : List Layer)
    (h2 : ∃ l ∈ layers, 2 ≤ l.frames.length) :
    ∃ dom, specDominantLayer layers = some dom
      ∧ (masterSel layers).2 = dom
      ∧ 0 < dom.frames.length
      ∧ ∀ i, exportDelayMs layers i
          = dom.frames.getD (i % dom.frames.length) 0 := by
  obtain ⟨w, hw, hw2⟩ := h2
  have hmax2 : 2 ≤ maxFrameCount layers :=
    le_trans hw2 (mem_le_foldrMaxCount layers w hw)
  have hfst : (masterSel layers).1 = maxFrameCount layers := by
    unfold masterSel maxFrameCount
    rw [masterFold_fst]
    unfold maxFrameCount at hmax2
    omega
  have hfind := masterFold_find layers 1 (layers.headD undefinedLayer)
    ⟨w, hw, by omega⟩
  refine ⟨(masterSel layers).2, ?_, rfl, ?_, ?_⟩
  · unfold specDominantLayer
    rw [← hfst]
    exact hfind
  · have hp := List.find?_some hfind
    simp only [decide_eq_true_eq] at hp
    have : (masterSel layers).2.frames.length = (masterSel layers).1 := hp
    omega
  · intro i
    have hp := List.find?_some hfind
    simp only [decide_eq_true_eq] at hp
    have hpos : 0 < (masterSel layers).2.frames.length := by
      have : (masterSel layers).2.frames.length = (masterSel layers).1 := hp
      omega
    unfold exportDelayMs
    rw [if_pos hpos]

/-- Witness for C3 (amended) on the `[1,4,2]` stack: the 4-frame layer
is dominant and supplies the delays. -/
theorem generateExportBlob_delay_from_dominant_witness :
    ∃ dom, specDominantLayer exLayers142 = some dom
      ∧ (masterSel exLayers142).2 = dom
      ∧ 0 < dom.frames.length
      ∧ ∀ i, exportDelayMs exLayers142 i
          = dom.frames.getD (i % dom.frames.length) 0 :=
  generateExportBlob_delay_from_dominant exLayers142
    ⟨⟨"anim", [50, 50, 50, 50], true, false, false⟩, by simp [exLayers142],
      by simp⟩

/-- A stack whose first (Base) layer is empty while a later layer has
exactly one frame of 200 ms. -/
def emptyFirstStack : List Layer :=
  [⟨"base", [], true, false, true⟩,
   ⟨"anim", [200], true, false, false⟩]

/-- C3 counterexample: on `emptyFirstStack` the spec's dominant layer is
the 1-frame 200 ms layer, but `masterLayer` (never beaten, since
`maxFrames` starts at 1) stays the empty first layer, so export frame 0
uses the 100 ms default instead of 200 ms. -/
theorem generateExportBlob_delay_counterexample :
    specDominantLayer emptyFirstStack
      = some ⟨"anim", [200], true, false, false⟩
    ∧ (⟨"anim", [200], true, false, false⟩ : Layer).frames.getD (0 % 1) 0
      = 200
    ∧ exportDelayMs emptyFirstStack 0 = 100
    ∧ (100 : ℚ) ≠ 200 := by
  refine ⟨rfl, rfl, rfl, by norm_num⟩

/-- A one-layer stack with a single 100 ms frame. -/
def singleFrameStack : List Layer := [⟨"base", [100], true, false, true⟩]

/-- C4: evaluation at the failing input.  When `canvas.toBlob` yields no
bytes for frame 0 (`enc 0 = none`), the export does **not** abort: the
loop still pushes the frame's rate, emitting 0 icon blobs alongside 1
rate entry — desynchronised frame/delay bookkeeping, contradicting the
claim (which the spec's own design notes flag as a defect in the
source). -/
theorem generateExportBlob_encode_failure_mismatch :
    (generateExportBlob .ani singleFrameStack 32 0 0 (fun _ => none)).1.length
        = 0
    ∧ (generateExportBlob .ani singleFrameStack 32 0 0
        (fun _ => none)).2.length = 1 := by
  constructor <;> rfl

/-! ## ANI container decoder: `parseAniFile`

```js
if (new TextDecoder().decode(bytes.slice(0, 4)) !== 'RIFF') throw new Error("Invalid ANI");
let pos = 12, defaultRate = 60, rates = [], iconChunks = [];
while (pos < bytes.length - 8) {
    const id = decode(bytes.slice(pos, pos+4));
    const size = data.getUint32(pos+4, true);
    pos += 8;
    if (id === 'anih' && size >= 36) defaultRate = data.getUint32(pos+28, true);
    else if (id === 'rate') for(let i=0; i<size/4; i++) rates.push(data.getUint32(pos+i*4, true));
    else if (id === 'LIST') {
         if (decode(bytes.slice(pos, pos+4)) === 'fram') {
             let ip = pos+4, end = pos+size;
             while(ip < end-8) {
                 const iid = decode(bytes.slice(ip, ip+4));
                 const isz = data.getUint32(ip+4, true);
                 ip+=8;
                 if(iid==='icon') iconChunks.push(bytes.slice(ip, ip+isz));
                 ip+=isz+(isz%2);
             }
         }
    }
    pos += size + (size%2);
}
...
frames.push({ image: img, delay: (i < rates.length ? rates[i] : defaultRate) * (1000/60) });
```
Loop guards use `Nat` subtraction, which agrees with the JS comparison
(`x < len - 8` is false in both whenever `len ≤ 8`).  A `DataView` read
past the end throws a `RangeError` in JS; the well-formed inputs of the
claims never hit that path, and it never affects position arithmetic, so
out-of-range byte reads are modelled as 0-extension.  Four-byte ASCII id
comparison is byte-list equality with the id's character codes.  The
`rate` loop `for(i=0; i<size/4; i++)` runs `⌈size/4⌉` times (`size/4` is
float division in JS). -/

/-- `bytes.slice(pos, pos+4)` compared against a 4-char ASCII id. -/
def fourCC (bytes : List Nat) (pos : Nat) : List Nat :=
  ((bytes.drop pos).take 4)

/-- ASCII codes of `'anih'`. -/
def anihId : List Nat := [0x61, 0x6E, 0x69, 0x68]

/-- ASCII codes of `'rate'`. -/
def rateId : List Nat := [0x72, 0x61, 0x74, 0x65]

/-- ASCII codes of `'LIST'`. -/
def listId : List Nat := [0x4C, 0x49, 0x53, 0x54]

/-- ASCII codes of `'fram'`. -/
def framId : List Nat := [0x66, 0x72, 0x61, 0x6D]

/-- ASCII codes of `'icon'`. -/
def iconId : List Nat := [0x69, 0x63, 0x6F, 0x6E]

/-- ASCII codes of `'RIFF'`. -/
def riffId : List Nat := [0x52, 0x49, 0x46, 0x46]

/-- `bytes.slice(a, a + n)` (clamped at the end, like JS `slice`). -/
def sliceBytes (bytes : List Nat) (a n : Nat) : List Nat :=
  (bytes.drop a).take n

/-- Position advance of one chunk iteration: `pos += 8` for the header,
then `pos += size + (size % 2)` for payload and pad — in both the
top-level walk and the `fram` sub-chunk walk. -/
def chunkStep (pos size : Nat) : Nat := pos + 8 + size + size % 2

/-- The accumulated decoder state of `parseAniFile`'s chunk walk. -/
structure AniState where
  defaultRate : Nat
  rates : List Nat
  icons : List (List Nat)
deriving DecidableEq, Repr

/-- The inner `fram` LIST walk collecting `icon` sub-chunk payloads. -/
def framWalk (bytes : List Nat) (stop : Nat) (ip : Nat)
    (icons : List (List Nat)) : List (List Nat) :=
  if _h : ip < stop - 8 then
    let isz := readU32le bytes (ip + 4)
    let icons' :=
      if fourCC bytes ip = iconId then icons ++ [sliceBytes bytes (ip + 8) isz]
      else icons
    framWalk bytes stop (chunkStep ip isz) icons'
  else icons
termination_by stop - ip
decreasing_by
  simp only [chunkStep]
  omega

/-- The top-level chunk walk of `parseAniFile`, from byte offset 12. -/
def aniChunkWalk (bytes : List Nat) (pos : Nat) (st : AniState) : AniState :=
  if h : pos < bytes.length - 8 then
    let id := fourCC bytes pos
    let size := readU32le bytes (pos + 4)
    let body := pos + 8
    let newRates :=
      (List.range ((size + 3) / 4)).map (fun i => readU32le bytes (body + 4 * i))
    let st' :=
      if id = anihId ∧ 36 ≤ size then
        { st with defaultRate := readU32le bytes (body + 28) }
      else if id = rateId then
        { st with rates := st.rates ++ newRates }
      else if id = listId ∧ fourCC bytes body = framId then
        { st with icons := framWalk bytes (body + size) (body + 4) st.icons }
      else st
    aniChunkWalk bytes (chunkStep pos size) st'
  else st
termination_by bytes.length - pos
decreasing_by
  simp only [chunkStep]
  omega

/-- `parseAniFile` up to image decoding: RIFF magic check, then the chunk
walk from offset 12 with `defaultRate = 60`. -/
def parseAniFile (bytes : List Nat) : Except String AniState :=
  if bytes.take 4 = riffId then
    .ok (aniChunkWalk bytes 12 ⟨60, [], []⟩)
  else .error "Invalid ANI"

/-- Millisecond delay of decoded frame `i`:
`(i < rates.length ? rates[i] : defaultRate) * (1000/60)`. -/
def aniFrameDelay (st : AniState) (i : Nat) : ℚ :=
  ((if i < st.rates.length then st.rates.getD i 0 else st.defaultRate : Nat)
      : ℚ) * (1000 / 60)

/-- The re-encoding formula as the claim words it:
`max(1, round(delay_ms / (1000/60)))`, with the exact divisor `1000/60`
in place of the source's literal `16.666`. -/
def specRateOf (d : ℚ) : ℤ := max 1 ⌊d / (1000 / 60 : ℚ) + 1 / 2⌋

/-- A 124-byte RIFF/ACON file: `anih` (rate 60), `rate` chunk `[6,6,12]`,
and a `fram` LIST with three 4-byte `icon` sub-chunks. -/
def aniSample : List Nat :=
  [82, 73, 70, 70, 116, 0, 0, 0, 65, 67, 79, 78, 97, 110, 105, 104, 36, 0, 0,
   0, 0, 0, 0, 0, 0, 0, 0, 0, 0, 0, 0, 0, 0, 0, 0, 0, 0, 0, 0, 0, 0, 0, 0, 0,
   0, 0, 0, 0, 60, 0, 0, 0, 0, 0, 0, 0, 114, 97, 116, 101, 12, 0, 0, 0, 6, 0,
   0, 0, 6, 0, 0, 0, 12, 0, 0, 0, 76, 73, 83, 84, 40, 0, 0, 0, 102, 114, 97,
   109, 105, 99, 111, 110, 4, 0, 0, 0, 1, 2, 3, 4, 105, 99, 111, 110, 4, 0, 0,
   0, 5, 6, 7, 8, 105, 99, 111, 110, 4, 0, 0, 0, 9, 10, 11, 12]

set_option maxRecDepth 10000 in
/-- C5: decoding an ANI whose rate chunk holds `[6,6,12]` yields three
frames with delays `(rate * 1000/60) = [100,100,200]` ms — exactly, so
certainly within the 1 ms tolerance — and re-encoding those delays
recomputes the rates `[6,6,12]` exactly, both with the source's divisor
`16.666` (`exportRateOf`) and with the claim's exact `1000/60`
(`specRateOf`). -/
theorem parseAniFile_rate_roundtrip :
    ∃ st, parseAniFile aniSample = .ok st
      ∧ st.rates = [6, 6, 12]
      ∧ st.icons.length = 3
      ∧ aniFrameDelay st 0 = 100 ∧ aniFrameDelay st 1 = 100
      ∧ aniFrameDelay st 2 = 200
      ∧ |aniFrameDelay st 0 - 100| ≤ 1 ∧ |aniFrameDelay st 1 - 100| ≤ 1
      ∧ |aniFrameDelay st 2 - 200| ≤ 1
      ∧ [aniFrameDelay st 0, aniFrameDelay st 1,
          aniFrameDelay st 2].map exportRateOf = [6, 6, 12]
      ∧ [aniFrameDelay st 0, aniFrameDelay st 1,
          aniFrameDelay st 2].map specRateOf = [6, 6, 12] := by
  refine ⟨⟨60, [6, 6, 12], [[1, 2, 3, 4], [5, 6, 7, 8], [9, 10, 11, 12]]⟩,
    ?_, rfl, rfl, ?_, ?_, ?_, ?_, ?_, ?_, ?_, ?_⟩
  · simp [parseAniFile, aniChunkWalk, framWalk, aniSample, fourCC, readU32le,
      sliceBytes, chunkStep, anihId, rateId, listId, framId, iconId, riffId,
      List.range_succ]
  all_goals norm_num [aniFrameDelay, exportRateOf, specRateOf]

/-- C10: both chunk walks of `parseAniFile` (`aniChunkWalk` at the top
level and `framWalk` inside a `fram` LIST) advance their position by
`chunkStep pos size = pos + 8 + size + size % 2` each iteration — at
least 8 bytes for *every* declared size, zero and buffer-exceeding sizes
included — so the loop measure `len - pos` strictly decreases and both
walks terminate on every input. -/
theorem chunkStep_advances (len pos size : Nat) (h : pos < len - 8) :
    pos + 8 ≤ chunkStep pos size
      ∧ len - chunkStep pos size < len - pos := by
  unfold chunkStep
  omega

set_option maxRecDepth 10000 in
/-- Witness for C10 at the first chunk of `aniSample` (`len = 124`,
`pos = 12`, declared size 36). -/
theorem chunkStep_advances_witness :
    12 < aniSample.length - 8
      ∧ (12 + 8 ≤ chunkStep 12 36
        ∧ aniSample.length - chunkStep 12 36 < aniSample.length - 12) :=
  ⟨by decide, chunkStep_advances aniSample.length 12 36 (by decide)⟩

/-! ## Static CUR/ICO extractor: the non-GIF, non-ANI branch of `parseFile`

```js
let blob = new Blob([bytes], { type: 'image/png' });
if (bytes[0] === 0 && bytes[1] === 0 && bytes[2] === 2 && bytes[3] === 0) {
   let foundPng = false;
   for (let i = 0; i < bytes.length - 8; i++) {
     if (bytes[i] === 0x89 && bytes[i + 1] === 0x50) {
       blob = new Blob([bytes.slice(i)], { type: 'image/png' });
       foundPng = true;
       break;
     }
   }
   if (!foundPng) blob = new Blob([bytes], { type: 'image/x-icon' });
}
```
Out-of-range JS indexing yields `undefined`, which compares unequal to any
byte, so byte tests are modelled with optional indexing. -/

/-- How the static branch decodes the payload: the whole payload as PNG,
as PNG from byte `offset` on, or the whole payload as an icon blob. -/
inductive StaticDecode
  | pngWhole
  | pngFrom (offset : Nat)
  | iconWhole
deriving DecidableEq, Repr

/-- The directory test the code performs: first four bytes `00 00 02 00`
(CUR type only). -/
def curDirSig (bytes : List Nat) : Bool :=
  bytes[0]? == some 0 && bytes[1]? == some 0
    && bytes[2]? == some 2 && bytes[3]? == some 0

/-- The scan test the code performs at index `i`: the two bytes
`89 50`. -/
def pngSig2 (bytes : List Nat) (i : Nat) : Bool :=
  bytes[i]? == some 0x89 && bytes[i + 1]? == some 0x50

/-- The `for` scan: first index `i` in `start ≤ i < length - 8` whose two
bytes match `89 50`. -/
def findPngFrom (bytes : List Nat) (start : Nat) : Option Nat :=
  if start < bytes.length - 8 then
    if pngSig2 bytes start then some start else findPngFrom bytes (start + 1)
  else none
termination_by bytes.length - 8 - start
decreasing_by omega

/-- The static branch of `parseFile`. -/
def parseFileStatic (bytes : List Nat) : StaticDecode :=
  if curDirSig bytes then
    match findPngFrom bytes 0 with
    | some i => .pngFrom i
    | none => .iconWhole
  else .pngWhole

/-- The scan finds exactly the least matching index at or after
`start`. -/
theorem findPngFrom_eq_some (bytes : List Nat) (start k : Nat) :
    findPngFrom bytes start = some k
      ↔ start ≤ k ∧ k < bytes.length - 8 ∧ pngSig2 bytes k = true
        ∧ ∀ j, start ≤ j → j < k → pngSig2 bytes j = false := by
  have H : ∀ n start, bytes.length - 8 - start ≤ n →
      (findPngFrom bytes start = some k
        ↔ start ≤ k ∧ k < bytes.length - 8 ∧ pngSig2 bytes k = true
          ∧ ∀ j, start ≤ j → j < k → pngSig2 bytes j = false) := by
    intro n
    induction n with
    | zero =>
        intro start hn
        rw [findPngFrom, if_neg (by omega)]
        constructor
        · intro h
          simp at h
        · rintro ⟨h1, h2, -, -⟩
          omega
    | succ n ih =>
        intro start hn
        by_cases hl : start < bytes.length - 8
        · rw [findPngFrom, if_pos hl]
          by_cases hs : pngSig2 bytes start
          · rw [if_pos hs]
            constructor
            · rintro ⟨rfl⟩
              exact ⟨le_refl _, hl, hs, fun j h1 h2 => by omega⟩
            · rintro ⟨h1, h2, hk, hleast⟩
              rcases Nat.eq_or_lt_of_le h1 with rfl | hlt
              · rfl
              · exact absurd hs (by simpa using hleast start (le_refl _) hlt)
          · rw [if_neg hs]
            rw [ih (start + 1) (by omega)]
            constructor
            · rintro ⟨h1, h2, hk, hleast⟩
              exact ⟨by omega, h2, hk, fun j hj1 hj2 => by
                rcases Nat.eq_or_lt_of_le hj1 with rfl | h
                · simpa using hs
                · exact hleast j (by omega) hj2⟩
            · rintro ⟨h1, h2, hk, hleast⟩
              have hne : start ≠ k := by
                rintro rfl
                exact hs (by simp [hk])
              exact ⟨by omega, h2, hk,
                fun j hj1 hj2 => hleast j (by omega) hj2⟩
        · rw [findPngFrom, if_neg hl]
          constructor
          · intro h
            simp at h
          · rintro ⟨h1, h2, -, -⟩
            omega
  exact H (bytes.length - 8 - start) start (le_refl _)

/-- The scan fails exactly when no index in range matches. -/
theorem findPngFrom_eq_none (bytes : List Nat) (start : Nat) :
    findPngFrom bytes start = none
      ↔ ∀ j, start ≤ j → j < bytes.length - 8 → pngSig2 bytes j = false := by
  have H : ∀ n start, bytes.length - 8 - start ≤ n →
      (findPngFrom bytes start = none
        ↔ ∀ j, start ≤ j → j < bytes.length - 8 → pngSig2 bytes j = false) := by
    intro n
    induction n with
    | zero =>
        intro start hn
        rw [findPngFrom, if_neg (by omega)]
        constructor
        · intro _ j h1 h2
          omega
        · intro _
          rfl
    | succ n ih =>
        intro start hn
        by_cases hl : start < bytes.length - 8
        · rw [findPngFrom, if_pos hl]
          by_cases hs : pngSig2 bytes start
          · rw [if_pos hs]
            simp only [reduceCtorEq, false_iff]
            push_neg
            exact ⟨start, le_refl _, hl, by simpa using hs⟩
          · rw [if_neg hs]
            rw [ih (start + 1) (by omega)]
            constructor
            · intro h j hj1 hj2
              rcases Nat.eq_or_lt_of_le hj1 with rfl | hlt
              · simpa using hs
              · exact h j (by omega) hj2
            · intro h j hj1 hj2
              exact h j (by omega) hj2
        · rw [findPngFrom, if_neg hl]
          constructor
          · intro _ j h1 h2
            omega
          · intro _
            rfl
  exact H (bytes.length - 8 - start) start (le_refl _)

/-- C8 amended: the static extractor treats a payload as
directory-wrapped exactly when its first four bytes are `00 00 02 00`
(CUR type only — an ICO-type `00 00 01 00` payload is decoded whole as
PNG); for directory payloads it decodes as PNG from the *first* index
`i < length - 8` whose **two** bytes are `89 50`, falling back to a
whole-payload icon decode when no index matches; every payload without
the `00 00 02 00` signature is decoded whole as PNG. -/
theorem parseFileStatic_classification (bytes : List Nat) :
    (parseFileStatic bytes = .pngWhole ↔ curDirSig bytes = false)
    ∧ (∀ i, parseFileStatic bytes = .pngFrom i
        ↔ curDirSig bytes = true ∧ i < bytes.length - 8
          ∧ pngSig2 bytes i = true ∧ ∀ j < i, pngSig2 bytes j = false)
    ∧ (parseFileStatic bytes = .iconWhole
        ↔ curDirSig bytes = true
          ∧ ∀ i < bytes.length - 8, pngSig2 bytes i = false) := by
  unfold parseFileStatic
  by_cases hdir : curDirSig bytes
  · rw [if_pos hdir]
    cases hfind : findPngFrom bytes 0 with
    | none =>
        rw [findPngFrom_eq_none] at hfind
        refine ⟨?_, ?_, ?_⟩
        · simp [hdir]
        · intro i
          simp only [reduceCtorEq, false_iff]
          rintro ⟨-, hi, hsig, -⟩
          rw [hfind i (by omega) hi] at hsig
          simp at hsig
        · simp only [true_iff]
          exact ⟨hdir, fun i hi => hfind i (by omega) hi⟩
    | some i =>
        rw [findPngFrom_eq_some] at hfind
        obtain ⟨-, hi, hsig, hleast⟩ := hfind
        refine ⟨by simp [hdir], ?_, ?_⟩
        · intro i'
          constructor
          · intro h
            simp only [StaticDecode.pngFrom.injEq] at h
            subst h
            exact ⟨hdir, hi, hsig, fun j hj => hleast j (by omega) hj⟩
          · rintro ⟨-, hi', hsig', hleast'⟩
            have hii : i = i' := by
              by_contra hne
              rcases Nat.lt_or_ge i i' with h | h
              · rw [hleast' i h] at hsig
                simp at hsig
              · rw [hleast i' (by omega) (by omega)] at hsig'
                simp at hsig'
            simp [hii]
        · constructor
          · intro h
            simp at h
          · rintro ⟨-, hall⟩
            rw [hall i hi] at hsig
            simp at hsig
  · rw [if_neg hdir]
    refine ⟨by simp [hdir], ?_, ?_⟩
    · intro i
      simp only [reduceCtorEq, false_iff]
      rintro ⟨h, -⟩
      exact hdir h
    · simp only [reduceCtorEq, false_iff]
      rintro ⟨h, -⟩
      exact hdir h

/-- An ICO-type payload (`00 00 01 00`) carrying a PNG signature at
offset 4. -/
def icoSample : List Nat :=
  [0, 0, 1, 0, 0x89, 0x50, 0x4E, 0x47, 0, 0, 0, 0, 0]

/-- A CUR-type payload (`00 00 02 00`) with a false two-byte `89 50`
match at offset 4 and the real four-byte PNG signature at offset 8. -/
def curSample : List Nat :=
  [0, 0, 2, 0, 0x89, 0x50, 0, 0, 0x89, 0x50, 0x4E, 0x47,
   0, 0, 0, 0, 0, 0, 0, 0]

/-- C8 counterexample: (1) `icoSample` matches the claim's directory
signature (type 01) yet the code decodes it whole as PNG without any
scan; (2) `curSample`'s first full PNG signature `89 50 4E 47` sits at
offset 8, yet the code decodes from offset 4, where only the two bytes
`89 50` match. -/
theorem parseFileStatic_counterexample :
    (icoSample.take 4 = [0, 0, 1, 0]
      ∧ parseFileStatic icoSample = .pngWhole)
    ∧ (curSample.take 4 = [0, 0, 2, 0]
      ∧ fourCC curSample 4 ≠ [0x89, 0x50, 0x4E, 0x47]
      ∧ fourCC curSample 8 = [0x89, 0x50, 0x4E, 0x47]
      ∧ parseFileStatic curSample = .pngFrom 4
      ∧ (4 : Nat) ≠ 8) := by
  refine ⟨⟨by decide, ?_⟩, by decide, by decide, by decide, ?_, by decide⟩
  · simp [parseFileStatic, curDirSig, icoSample]
  · simp [parseFileStatic, findPngFrom, curDirSig, pngSig2, curSample]

/-! ## Layer stack: `removeLayer`

```js
const removeLayer = (layerId) => {
  updateCursorState(prev => ({ layers: prev.layers.filter(l => l.id !== layerId) }));
  if (selectedLayerId === layerId) setSelectedLayerId(activeLayers[0]?.id || 'base');
};
```
The stack update filters unconditionally; no `isBase` check appears here.
(The UI merely omits the delete button for the Base layer.) -/

/-- The stack part of `removeLayer`. -/
def removeLayer (layerId : String) (layers : List Layer) : List Layer :=
  layers.filter (fun l => l.id != layerId)

/-- A stack holding only the Base layer. -/
def baseOnlyStack : List Layer := [⟨"base", [], true, false, true⟩]

/-- C9 counterexample: the layer identified by `"base"` has the Base
role, yet `removeLayer "base"` deletes it — the stack changes. -/
theorem removeLayer_base_counterexample :
    (∃ l ∈ baseOnlyStack, l.id = "base" ∧ l.isBase = true)
    ∧ removeLayer "base" baseOnlyStack = []
    ∧ removeLayer "base" baseOnlyStack ≠ baseOnlyStack := by
  refine ⟨⟨⟨"base", [], true, false, true⟩, by simp [baseOnlyStack], rfl, rfl⟩,
    rfl, ?_⟩
  simp [removeLayer, baseOnlyStack]

/-- C9 amended: `removeLayer` filters on the id alone, regardless of the
Base role: the stack is left unchanged precisely when no layer carries
the given id.  The Base layer is protected only in the UI (no delete
control is rendered for it), not by `removeLayer` itself. -/
theorem removeLayer_unchanged_iff (layerId : String) (layers : List Layer) :
    removeLayer layerId layers = layers ↔ ∀ l ∈ layers, l.id ≠ layerId := by
  unfold removeLayer
  rw [List.filter_eq_self]
  simp
